import Mathlib

/- Verification development for the etoad electrochemistry automation package.
   The definitions below are shallow embeddings of the Python source:
   floats are modelled as exact rationals (with Option ℚ standing for values
   that may be NaN), raised exceptions are modelled with Except, and external
   library calls (scipy, numpy hull/peak detection, hardware drivers) are
   passed in as function parameters. -/

namespace Etoad

set_option maxRecDepth 100000

/-- Python exception kinds raised by the embedded code. -/
inductive PyErr where
  | skipExecution
  | stopExecution
  | keyError
  | typeError
  | valueError
  | runtime (msg : String)
  deriving DecidableEq

/-- Model of a Python float value: none stands for NaN. -/
abbrev PyFloat := Option ℚ

instance {ε α : Type _} [DecidableEq ε] [DecidableEq α] : DecidableEq (Except ε α) := fun x y =>
  match x, y with
  | .error e, .error f =>
    if h : e = f then .isTrue (by rw [h]) else .isFalse (fun hc => h (Except.error.inj hc))
  | .ok a, .ok b =>
    if h : a = b then .isTrue (by rw [h]) else .isFalse (fun hc => h (Except.ok.inj hc))
  | .error _, .ok _ => .isFalse (fun hc => Except.noConfusion hc)
  | .ok _, .error _ => .isFalse (fun hc => Except.noConfusion hc)

instance (priority := 2000) ratFastDecEq : DecidableEq ℚ := fun a b =>
  decidable_of_iff (a.num = b.num ∧ a.den = b.den)
    ⟨fun h => Rat.ext h.1 h.2, fun h => ⟨congrArg Rat.num h, congrArg Rat.den h⟩⟩

/-- Fuel-driven helper computing the floor of the base-10 logarithm of a natural number. -/
def natLog10Aux : ℕ → ℕ → ℕ
  | 0, _ => 0
  | fuel + 1, n => if n < 10 then 0 else natLog10Aux fuel (n / 10) + 1

/-- Floor of the base-10 logarithm of a natural number (0 for inputs below 1). -/
def natLog10 (n : ℕ) : ℕ := natLog10Aux n n

/-- Fuel-driven helper finding the least exponent n at or above the accumulator
with q * 10 ^ n at least 1. -/
def invLog10Aux : ℕ → ℚ → ℕ → ℕ
  | 0, _, n => n
  | fuel + 1, q, n => if 1 ≤ q * 10 ^ n then n else invLog10Aux fuel q (n + 1)

/-- Absolute value on rationals, written so that it evaluates by kernel reduction. -/
def pyAbs (q : ℚ) : ℚ := if q < 0 then -q else q

/-- Floor of the base-10 logarithm of a positive rational: the exact counterpart of
int(floor(log10(q))) computed by the source through math.log10. -/
def floorLog10 (q : ℚ) : ℤ :=
  if 1 ≤ q then (natLog10 (Rat.floor q).toNat : ℤ)
  else -(invLog10Aux q.den q 1 : ℤ)

/-- Rounding of a rational to the nearest integer with ties to even, matching the
rounding mode of Python round. -/
def roundHalfEven (x : ℚ) : ℤ :=
  let f : ℤ := Rat.floor x
  let r : ℚ := x - f
  if r < 1 / 2 then f
  else if 1 / 2 < r then f + 1
  else if f % 2 = 0 then f else f + 1

/-- Embedding of Python round(q, nd) on exact rationals. -/
def pyRound (q : ℚ) (nd : ℤ) : ℚ :=
  let scale : ℚ := if 0 ≤ nd then (10 : ℚ) ^ nd.toNat else 1 / (10 : ℚ) ^ (-nd).toNat
  (roundHalfEven (q * scale) : ℚ) / scale

/-- Embedding of significant_digits from DataAnalyzer/AnalysisUtils/significant_digits.py.
A NaN input makes floor raise ValueError and a zero input makes log10 raise
ValueError (math domain error), so both are error outcomes. -/
def significant_digits (number : PyFloat) (no_digits : ℤ) : Except PyErr ℚ :=
  match number with
  | none => .error .valueError
  | some q =>
    if q = 0 then .error .valueError
    else
      let no_decimal_places : ℤ := -(floorLog10 (pyAbs q)) + no_digits - 1
      .ok (pyRound q no_decimal_places)

/-- C10: the significant-figures rounding utility maps 0.0034567 at 3 significant
figures to 0.00346, and 12345 at 2 significant figures to 12000. -/
theorem significant_digits_reference_values :
    significant_digits (some (34567 / 10000000)) 3 = .ok (346 / 100000) ∧
    significant_digits (some 12345) 2 = .ok 12000 := by
  refine ⟨?_, ?_⟩ <;> with_unfolding_all decide

/-- Model of a Python runtime value as needed for the membership test in
PulseTechniqueAnalyzer._get_peak_data: a string, or a dict_keys view object. -/
inductive PyVal where
  | str (s : String)
  | keysView (keys : List String)
  deriving DecidableEq

/-- Python equality between runtime values: operands of different runtime types
compare unequal rather than raising. -/
def pyEq : PyVal → PyVal → Bool
  | .str a, .str b => a == b
  | .keysView a, .keysView b => a == b
  | _, _ => false

/-- Python membership test x in l over a list of runtime values. -/
def pyIn (x : PyVal) (l : List PyVal) : Bool := l.any (pyEq x)

/-- Peak metadata record built by PulseTechniqueAnalyzer._get_peak_data, one field
per key of the Python peak dictionary. -/
structure Peak where
  onset : ℚ
  offset : ℚ
  peak : ℚ
  onset_idx : ℕ
  peak_idx : ℕ
  offset_idx : ℕ
  height : ℚ
  width : ℚ
  shape_factor : ℚ
  rel_shape_factor : ℚ
  overlap : Bool
  deriving DecidableEq

/-- Adjacent-pair overlap reconciliation pass at the end of _get_peak_data.
The source iterates over zip(peaks, peaks[1:]) mutating the shared list in place,
so the updated second element of a pair becomes the first element of the next pair;
on an overlap the later peak first receives the earlier offset, then the earlier
peak receives the later onset. -/
def resolveOverlaps (peaks : List Peak) : List Peak :=
  match peaks with
  | [] => []
  | [p] => [p]
  | p1 :: p2 :: rest =>
    if p2.onset < p1.offset then
      { p1 with offset := p2.onset, overlap := true } ::
        resolveOverlaps ({ p2 with offset := p1.offset, overlap := true } :: rest)
    else
      p1 :: resolveOverlaps (p2 :: rest)
termination_by peaks.length

/-- Negation of a possibly-NaN float. -/
def pfNeg : PyFloat → PyFloat
  | none => none
  | some q => some (-q)

/-- Division of possibly-NaN floats, propagating NaN. -/
def pfDiv : PyFloat → PyFloat → PyFloat
  | some a, some b => if b = 0 then none else some (a / b)
  | _, _ => none

/-- Binary maximum of possibly-NaN floats. -/
def pfMax : PyFloat → PyFloat → PyFloat
  | some a, some b => some (max a b)
  | _, _ => none

/-- Maximum of a list of possibly-NaN floats, none on the empty list. -/
def pfMaxList : List PyFloat → PyFloat
  | [] => none
  | x :: xs => xs.foldl pfMax x

/-- Integer truncation toward zero, the behaviour of Python int() on a float. -/
def pyInt (q : ℚ) : ℤ := if q < 0 then -(Rat.floor (-q)) else Rat.floor q

/-- List indexing with a default, written as a plain recursion so that proofs can
match on it syntactically. -/
def nthD {α : Type _} (l : List α) (i : ℕ) (d : α) : α :=
  match l, i with
  | [], _ => d
  | x :: _, 0 => x
  | _ :: xs, n + 1 => nthD xs n d

/-- Entry of a two-dimensional numpy table at row r and column c. -/
def cell (data : List (List ℚ)) (r c : ℕ) : ℚ := nthD (nthD data r []) c 0

/-- Peak properties dictionary returned by scipy.signal.find_peaks as consumed by
_get_peak_data: the key list of the Python dict is kept so the membership test can
be stated, and the height column may hold NaN. -/
structure PeakProps where
  keys : List String
  peak_heights : List PyFloat
  widths : List ℚ
  left_ips : List ℚ
  right_ips : List ℚ

/-- Construction of the peak dictionary for index i inside _get_peak_data; the
dictionary fields are evaluated in source order and every field rounded through
significant_digits can raise, so building is fallible. -/
def buildPeak (data : List (List ℚ)) (heights : List PyFloat) (maxShape : PyFloat)
    (props : PeakProps) (redox : String) (i peak_idx : ℕ) : Except PyErr Peak :=
  let onset_idx : ℕ := (pyInt (nthD props.left_ips i 0)).toNat
  let offset_idx : ℕ := (pyInt (nthD props.right_ips i 0)).toNat
  let h : PyFloat :=
    if redox = "reduction" then pfNeg (nthD heights i none) else nthD heights i none
  match significant_digits (some (cell data onset_idx 1)) 3 with
  | .error e => .error e
  | .ok onset =>
  match significant_digits (some (cell data offset_idx 1)) 3 with
  | .error e => .error e
  | .ok offset =>
  match significant_digits (some (cell data peak_idx 1)) 3 with
  | .error e => .error e
  | .ok peakv =>
  match significant_digits h 3 with
  | .error e => .error e
  | .ok height =>
  match significant_digits (some (nthD props.widths i 0)) 3 with
  | .error e => .error e
  | .ok width =>
  match significant_digits (pfDiv (nthD heights i none) (some (nthD props.widths i 0))) 3 with
  | .error e => .error e
  | .ok sf =>
  match significant_digits
      (pfDiv (pfDiv (nthD heights i none) (some (nthD props.widths i 0))) maxShape) 3 with
  | .error e => .error e
  | .ok rsf =>
    .ok { onset := onset, offset := offset, peak := peakv, onset_idx := onset_idx,
          peak_idx := peak_idx, offset_idx := offset_idx, height := height,
          width := width, shape_factor := sf, rel_shape_factor := rsf, overlap := false }

/-- Embedding of PulseTechniqueAnalyzer._get_peak_data. The source first tests
numpy truthiness of the picked index array, then tests whether the string
"peak_heights" is a member of the one-element list holding the dict_keys view
object, then builds the peak dictionaries and runs the overlap pass. -/
def getPeakData (data : List (List ℚ)) (peaks_picked : List ℕ) (props : PeakProps)
    (redox_process : String) : Except PyErr (List Peak) :=
  if peaks_picked.all (· == 0) then .ok []
  else
    let guard := pyIn (.str "peak_heights") [.keysView props.keys]
    let heights : List PyFloat :=
      if guard then props.peak_heights else List.replicate peaks_picked.length none
    let maxShape : PyFloat :=
      if guard then
        pfMaxList ((List.range peaks_picked.length).map
          (fun i => pfDiv (nthD props.peak_heights i none) (some (nthD props.widths i 0))))
      else none
    match (List.range peaks_picked.length).mapM
        (fun i => buildPeak data heights maxShape props redox_process i
          (nthD peaks_picked i 0)) with
    | .error e => .error e
    | .ok peaks => .ok (resolveOverlaps peaks)

theorem resolveOverlaps_eq_of_lt (p1 p2 : Peak) (rest : List Peak)
    (h : p2.onset < p1.offset) :
    resolveOverlaps (p1 :: p2 :: rest) =
      { p1 with offset := p2.onset, overlap := true } ::
        resolveOverlaps ({ p2 with offset := p1.offset, overlap := true } :: rest) := by
  simp only [resolveOverlaps]
  rw [if_pos h]

theorem resolveOverlaps_eq_of_not_lt (p1 p2 : Peak) (rest : List Peak)
    (h : ¬ p2.onset < p1.offset) :
    resolveOverlaps (p1 :: p2 :: rest) = p1 :: resolveOverlaps (p2 :: rest) := by
  simp only [resolveOverlaps]
  rw [if_neg h]

theorem resolveOverlaps_cons (p : Peak) (l : List Peak) :
    ∃ q t, resolveOverlaps (p :: l) = q :: t ∧ q.onset = p.onset ∧
      (p.overlap = true → q.overlap = true) := by
  cases l with
  | nil => exact ⟨p, [], by simp [resolveOverlaps], rfl, fun h => h⟩
  | cons p2 rest =>
    by_cases h : p2.onset < p.offset
    · exact ⟨_, _, resolveOverlaps_eq_of_lt p p2 rest h, rfl, fun _ => rfl⟩
    · exact ⟨p, _, resolveOverlaps_eq_of_not_lt p p2 rest h, rfl, fun hh => hh⟩

theorem resolveOverlaps_chain (l : List Peak) :
    List.Chain' (fun a b => a.offset ≤ b.onset) (resolveOverlaps l) := by
  induction l using resolveOverlaps.induct with
  | case1 => simp [resolveOverlaps]
  | case2 p => simp [resolveOverlaps]
  | case3 p1 p2 rest h ih =>
    rw [resolveOverlaps_eq_of_lt p1 p2 rest h]
    obtain ⟨q, t, hq, hon, _⟩ :=
      resolveOverlaps_cons { p2 with offset := p1.offset, overlap := true } rest
    rw [hq] at ih ⊢
    exact List.chain'_cons.mpr ⟨by simp [hon], ih⟩
  | case4 p1 p2 rest h ih =>
    rw [resolveOverlaps_eq_of_not_lt p1 p2 rest h]
    obtain ⟨q, t, hq, hon, _⟩ := resolveOverlaps_cons p2 rest
    rw [hq] at ih ⊢
    exact List.chain'_cons.mpr ⟨by rw [hon]; exact le_of_not_lt h, ih⟩

/-- C4: for every peak list sorted by onset, the adjacent-pair overlap pass leaves no
adjacent pair with the earlier offset above the later onset; and whenever the pass
examines an adjacent pair in overlapping state (every pair the in-place loop visits
is the head pair of such a recursion state), both output peaks are flagged
overlap = true and the earlier offset is reconciled to the later onset. -/
theorem overlap_reconciliation_invariant (l : List Peak)
    (hsorted : List.Chain' (fun a b => a.onset ≤ b.onset) l) :
    List.Chain' (fun a b => a.offset ≤ b.onset) (resolveOverlaps l) ∧
    ∀ p1 p2 rest, p2.onset < p1.offset →
      ∃ q1 q2 t, resolveOverlaps (p1 :: p2 :: rest) = q1 :: q2 :: t ∧
        q1.overlap = true ∧ q2.overlap = true ∧ q1.offset = p2.onset ∧
        q2.onset = p2.onset := by
  refine ⟨resolveOverlaps_chain l, ?_⟩
  intro p1 p2 rest h
  obtain ⟨q, t, hq, hon, hov⟩ :=
    resolveOverlaps_cons { p2 with offset := p1.offset, overlap := true } rest
  refine ⟨{ p1 with offset := p2.onset, overlap := true }, q, t, ?_, rfl, hov rfl, rfl, hon⟩
  rw [resolveOverlaps_eq_of_lt p1 p2 rest h, hq]

theorem overlap_reconciliation_invariant_witness :
    List.Chain' (fun a b => a.onset ≤ b.onset)
      [({ onset := 0, offset := 2, peak := 0, onset_idx := 0, peak_idx := 1, offset_idx := 2,
          height := 1, width := 1, shape_factor := 1, rel_shape_factor := 1,
          overlap := false } : Peak),
        { onset := 1, offset := 3, peak := 2, onset_idx := 1, peak_idx := 2, offset_idx := 3,
          height := 1, width := 1, shape_factor := 1, rel_shape_factor := 1,
          overlap := false }] ∧
    (List.Chain' (fun a b => a.offset ≤ b.onset) (resolveOverlaps
      [({ onset := 0, offset := 2, peak := 0, onset_idx := 0, peak_idx := 1, offset_idx := 2,
          height := 1, width := 1, shape_factor := 1, rel_shape_factor := 1,
          overlap := false } : Peak),
        { onset := 1, offset := 3, peak := 2, onset_idx := 1, peak_idx := 2, offset_idx := 3,
          height := 1, width := 1, shape_factor := 1, rel_shape_factor := 1,
          overlap := false }]) ∧
      ∀ p1 p2 rest, p2.onset < p1.offset →
        ∃ q1 q2 t, resolveOverlaps (p1 :: p2 :: rest) = q1 :: q2 :: t ∧
          q1.overlap = true ∧ q2.overlap = true ∧ q1.offset = p2.onset ∧
          q2.onset = p2.onset) := by
  have hs : List.Chain' (fun a b : Peak => a.onset ≤ b.onset)
      [({ onset := 0, offset := 2, peak := 0, onset_idx := 0, peak_idx := 1, offset_idx := 2,
          height := 1, width := 1, shape_factor := 1, rel_shape_factor := 1,
          overlap := false } : Peak),
        { onset := 1, offset := 3, peak := 2, onset_idx := 1, peak_idx := 2, offset_idx := 3,
          height := 1, width := 1, shape_factor := 1, rel_shape_factor := 1,
          overlap := false }] := by
    refine List.chain'_cons.mpr ⟨?_, ?_⟩
    · show (0 : ℚ) ≤ 1
      with_unfolding_all decide
    · exact List.chain'_singleton _
  exact ⟨hs, overlap_reconciliation_invariant _ hs⟩

theorem significant_digits_some_cases (q : ℚ) (d : ℤ) :
    significant_digits (some q) d = .error .valueError ∨
      ∃ r, significant_digits (some q) d = .ok r := by
  by_cases h : q = 0
  · left; simp [significant_digits, h]
  · right
    refine ⟨pyRound q (-(floorLog10 (pyAbs q)) + d - 1), ?_⟩
    simp [significant_digits, h]

theorem buildPeak_error (data : List (List ℚ)) (heights : List PyFloat) (maxShape : PyFloat)
    (props : PeakProps) (redox : String) (i pidx : ℕ)
    (hh : nthD heights i none = none) :
    buildPeak data heights maxShape props redox i pidx = .error .valueError := by
  unfold buildPeak
  dsimp only []
  have h4 : (if redox = "reduction" then pfNeg (nthD heights i none)
      else nthD heights i none) = none := by
    rw [hh]; split <;> rfl
  rcases significant_digits_some_cases
      (cell data (pyInt (nthD props.left_ips i 0)).toNat 1) 3 with h1 | ⟨r1, h1⟩
  · rw [h1]
  rw [h1]
  rcases significant_digits_some_cases
      (cell data (pyInt (nthD props.right_ips i 0)).toNat 1) 3 with h2 | ⟨r2, h2⟩
  · rw [h2]
  rw [h2]
  rcases significant_digits_some_cases (cell data pidx 1) 3 with h3 | ⟨r3, h3⟩
  · rw [h3]
  rw [h3, h4]
  rfl

/-- C5: the membership test guarding the peak_heights key compares the string against
the dict_keys view object and is never true, so every height is NaN and rounding
fails: whenever the detector reports at least one peak (scipy indices are interior,
hence at least 1), _get_peak_data raises ValueError instead of returning peaks. -/
theorem peak_metadata_extraction_raises (data : List (List ℚ)) (pp : List ℕ)
    (props : PeakProps) (redox : String) (hne : pp ≠ []) (hpos : ∀ i ∈ pp, 1 ≤ i) :
    pyIn (.str "peak_heights") [.keysView props.keys] = false ∧
    getPeakData data pp props redox = .error .valueError := by
  refine ⟨rfl, ?_⟩
  obtain ⟨a, t, rfl⟩ : ∃ a t, pp = a :: t := by
    cases pp with
    | nil => exact absurd rfl hne
    | cons a t => exact ⟨a, t, rfl⟩
  have ha : (a == 0) = false := by
    have := hpos a (by simp)
    simp only [beq_eq_false_iff_ne]
    omega
  have hall : (a :: t).all (· == 0) = false := by simp [List.all_cons, ha]
  have hb : buildPeak data (List.replicate (a :: t).length none) none props redox 0
      (nthD (a :: t) 0 0) = .error .valueError := by
    apply buildPeak_error
    simp [List.length_cons, List.replicate_succ, nthD]
  unfold getPeakData
  rw [hall]
  simp only [Bool.false_eq_true, if_false, pyIn, pyEq, List.any_cons, List.any_nil,
    Bool.or_false, Bool.false_eq_true, if_false]
  rw [show (a :: t).length = t.length + 1 from rfl, List.range_succ_eq_map,
    List.mapM_cons]
  rw [show List.replicate (a :: t).length (none : PyFloat) = List.replicate (t.length + 1) none
    from rfl] at hb
  rw [hb]
  rfl

theorem peak_metadata_extraction_raises_witness :
    (([1] : List ℕ) ≠ [] ∧ ∀ i ∈ ([1] : List ℕ), 1 ≤ i) ∧
    (pyIn (.str "peak_heights")
        [.keysView ["prominences", "left_bases", "right_bases", "widths", "width_heights",
          "left_ips", "right_ips"]] = false ∧
      getPeakData [[0, 1, 2], [0, 2, 3], [0, 3, 1]] [1]
        { keys := ["prominences", "left_bases", "right_bases", "widths", "width_heights",
            "left_ips", "right_ips"],
          peak_heights := [], widths := [1], left_ips := [0], right_ips := [2] }
        "oxidation" = .error .valueError) := by
  have h1 : ([1] : List ℕ) ≠ [] := by simp
  have h2 : ∀ i ∈ ([1] : List ℕ), 1 ≤ i := by simp
  exact ⟨⟨h1, h2⟩, peak_metadata_extraction_raises _ _ _ _ h1 h2⟩

/-- Insertion into a sorted list, ordered ascending. -/
def insertLe {α : Type _} [LinearOrder α] (x : α) : List α → List α
  | [] => [x]
  | y :: ys => if x ≤ y then x :: y :: ys else y :: insertLe x ys

/-- Insertion sort, ascending. -/
def sortLe {α : Type _} [LinearOrder α] : List α → List α
  | [] => []
  | x :: xs => insertLe x (sortLe xs)

/-- Embedding of numpy setdiff1d: the sorted unique values of the first array that
are not in the second. -/
def np_setdiff1d (a b : List ℕ) : List ℕ :=
  ((sortLe a).dedup).filter (fun x => !(b.contains x))

/-- Mean of a numpy array: NaN (none) on the empty array. -/
def npMean (l : List ℚ) : PyFloat :=
  match l with
  | [] => none
  | _ => some (l.sum / l.length)

/-- Embedding of estimate_noise from AnalysisUtils/noise_estimation.py. The two
find_peaks calls are external scipy detections, so their resulting index arrays
are taken as inputs: all_peaks holds every detected local maximum and
signal_peaks the maxima passing the width cutoff. A NaN mean (empty noise-peak
selection) is returned as None. -/
def estimate_noise (data : List ℚ) (all_peaks signal_peaks : List ℕ) : Option ℚ :=
  let noise_peaks := np_setdiff1d all_peaks signal_peaks
  let average_noise := npMean (noise_peaks.map (fun i => nthD data i 0))
  match average_noise with
  | none => none
  | some v => some v

/-- C8: the noise estimator returns the mean amplitude over the noise-peak index
set (all detected maxima minus the width-passing ones); it returns the undefined
sentinel None exactly when that set is empty, rather than zero or an error. -/
theorem noise_estimator_mean_or_undefined (data : List ℚ) (all_peaks signal_peaks : List ℕ) :
    (estimate_noise data all_peaks signal_peaks = none ↔
      np_setdiff1d all_peaks signal_peaks = []) ∧
    (np_setdiff1d all_peaks signal_peaks ≠ [] →
      estimate_noise data all_peaks signal_peaks =
        some ((((np_setdiff1d all_peaks signal_peaks).map (fun i => nthD data i 0)).sum) /
          (((np_setdiff1d all_peaks signal_peaks).map (fun i => nthD data i 0)).length))) := by
  unfold estimate_noise
  cases hnp : np_setdiff1d all_peaks signal_peaks with
  | nil => simp [hnp, npMean]
  | cons x xs => simp [hnp, npMean]

theorem noise_estimator_mean_or_undefined_witness :
    (np_setdiff1d [1, 3] [3] ≠ [] ∧
      estimate_noise [5, 7, 5, 9, 5] [1, 3] [3] =
        some ((((np_setdiff1d [1, 3] [3]).map (fun i => nthD [5, 7, 5, 9, 5] i 0)).sum) /
          (((((np_setdiff1d [1, 3] [3]).map
            (fun i => nthD [5, 7, 5, 9, 5] i 0)).length : ℕ) : ℚ)))) ∧
    estimate_noise [5, 7, 5, 9, 5] [1, 3] [1, 3] = none := by
  refine ⟨⟨?_, ?_⟩, ?_⟩
  · with_unfolding_all decide
  · exact (noise_estimator_mean_or_undefined [5, 7, 5, 9, 5] [1, 3] [3]).2
      (by with_unfolding_all decide)
  · exact (noise_estimator_mean_or_undefined [5, 7, 5, 9, 5] [1, 3] [1, 3]).1.mpr
      (by with_unfolding_all decide)

/-- Numpy maximum of a one-dimensional array: ValueError on the empty array. -/
def npMax (l : List ℚ) : Except PyErr ℚ :=
  match l with
  | [] => .error .valueError
  | x :: xs => .ok (xs.foldl max x)

/-- Column c of a raw-data table. -/
def column (t : List (List ℚ)) (c : ℕ) : List ℚ := t.map (fun row => nthD row c 0)

/-- Per-iteration phase of CVAnalyzer._separate_cycles (lines 34-38): the cycle
count is int(max(column 3) + 1) and the kept cycle indices are
range(skip_cycles, no_cycles) with skip_cycles fixed at 2. -/
def splitCycles (iteration_data : List (List ℚ)) : Except PyErr (List (List (List ℚ))) :=
  match npMax (column iteration_data 3) with
  | .error e => .error e
  | .ok m =>
    let no_cycles : ℤ := pyInt (m + 1)
    let skip_cycles : ℕ := 2
    .ok (((List.range no_cycles.toNat).drop skip_cycles).map
      (fun c => iteration_data.filter (fun row => decide (nthD row 3 0 = (c : ℚ)))))

/-- Model of a Python object that is either a numpy array or a Python list, as
needed for the trailing lines of _separate_cycles. -/
inductive NpData where
  | arr (table : List (List ℚ))
  | pylist (items : List NpData)

/-- Tuple indexing v[:, c]: valid on a numpy array, but a TypeError on a Python
list, whose indices cannot be tuples. -/
def getColumn2d : NpData → ℕ → Except PyErr (List ℚ)
  | .arr t, c => .ok (column t c)
  | .pylist _, _ => .error .typeError

/-- Boolean-mask indexing v[mask]: valid on a numpy array, but a TypeError on a
Python list. -/
def maskIndex : NpData → List Bool → Except PyErr NpData
  | .arr t, mask => .ok (.arr ((t.zip mask).filterMap
      (fun rc => if rc.2 then some rc.1 else none)))
  | .pylist _, _ => .error .typeError

/-- Embedding of CVAnalyzer._separate_cycles. After _separate_iterations the raw
data attribute is a Python list of per-iteration arrays; the loop replaces each
entry by its list of per-cycle arrays, after which the duplicated trailing lines
(39-41) index the resulting Python list with the tuple (slice, 3). -/
def separate_cycles (raw_data : List (List (List ℚ))) : Except PyErr NpData :=
  match raw_data.mapM splitCycles with
  | .error e => .error e
  | .ok partitioned =>
    let updated : NpData := .pylist (partitioned.map (fun cycles => .pylist (cycles.map .arr)))
    match getColumn2d updated 3 with
    | .error e => .error e
    | .ok col =>
      match npMax col with
      | .error e => .error e
      | .ok m =>
        let no_cycles : ℤ := pyInt m
        match ((List.range no_cycles.toNat).drop 2).mapM
            (fun c =>
              (match getColumn2d updated 3 with
              | .error e => .error e
              | .ok col2 =>
                maskIndex updated (col2.map (fun v => decide (v = (c : ℚ)))) :
                Except PyErr NpData)) with
        | .error e => .error e
        | .ok masked => .ok (.pylist masked)

/-- C7: the per-iteration partitioning phase of the CV analyzer does discard the
first two of five cycles, leaving three per-cycle tables; but _separate_cycles
then executes its duplicated trailing lines, which tuple-index the now plain
Python list and raise TypeError before the method can return, so the claimed
cycle list never survives the call. -/
theorem cv_cycle_skip_code_bug :
    splitCycles [[0, 0, 0, 0], [1, 0, 0, 1], [2, 0, 0, 2], [3, 0, 0, 3], [4, 0, 0, 4]] =
      .ok [[[2, 0, 0, 2]], [[3, 0, 0, 3]], [[4, 0, 0, 4]]] ∧
    separate_cycles [[[0, 0, 0, 0], [1, 0, 0, 1], [2, 0, 0, 2], [3, 0, 0, 3], [4, 0, 0, 4]]] =
      .error .typeError := by
  constructor
  · with_unfolding_all decide
  · with_unfolding_all rfl

/-- Median of a numpy array: middle element of the sorted values, or the average
of the two middle elements for even length. -/
def npMedian (l : List ℚ) : ℚ :=
  let s := sortLe l
  let n := l.length
  if n = 0 then 0
  else if n % 2 = 1 then nthD s (n / 2) 0
  else (nthD s (n / 2 - 1) 0 + nthD s (n / 2) 0) / 2

/-- Fold computing the first index of the maximum. -/
def npArgmaxAux {α : Type _} [LinearOrder α] : List α → ℕ → α → ℕ → ℕ
  | [], bi, _, _ => bi
  | v :: vs, bi, bv, i => if bv < v then npArgmaxAux vs i v (i + 1) else npArgmaxAux vs bi bv (i + 1)

/-- First index of the maximum, as numpy argmax; 0 on the empty array. -/
def npArgmax {α : Type _} [LinearOrder α] : List α → ℕ
  | [] => 0
  | v :: vs => npArgmaxAux vs 0 v 1

/-- Fold computing the first index of the minimum. -/
def npArgminAux {α : Type _} [LinearOrder α] : List α → ℕ → α → ℕ → ℕ
  | [], bi, _, _ => bi
  | v :: vs, bi, bv, i => if v < bv then npArgminAux vs i v (i + 1) else npArgminAux vs bi bv (i + 1)

/-- First index of the minimum, as numpy argmin; 0 on the empty array. -/
def npArgmin {α : Type _} [LinearOrder α] : List α → ℕ
  | [] => 0
  | v :: vs => npArgminAux vs 0 v 1

/-- Embedding of np.roll with a negative shift: rotation of the array k places to
the left. -/
def npRollLeft {α : Type _} (l : List α) (k : ℕ) : List α :=
  l.drop (k % l.length) ++ l.take (k % l.length)

/-- Linear interpolation of one query point over increasing sample positions xp
with values fp, clamped to the end values outside the range, as np.interp. -/
def npInterpPoint : List ℚ → List ℚ → ℚ → ℚ
  | [], _, _ => 0
  | [_], fp, _ => nthD fp 0 0
  | x1 :: x2 :: xs, fp, xi =>
    if xi < x1 then nthD fp 0 0
    else if xi ≤ x2 then
      let f1 := nthD fp 0 0
      let f2 := nthD fp 1 0
      if x2 = x1 then f1 else f1 + (f2 - f1) * (xi - x1) / (x2 - x1)
    else npInterpPoint (x2 :: xs) (fp.drop 1) xi

/-- Embedding of rubberband_baseline_detection from
AnalysisUtils/baseline_detection.py. The scipy ConvexHull call is external and
enters as the hull parameter returning vertex indices; the stored ascending and
positive_peaks flags of the source are inlined as the tests they hold. -/
def rubberband_baseline_detection (hull : List (ℚ × ℚ) → List ℕ)
    (x_values y_values : List ℚ) : List ℚ :=
  let x1 := if nthD x_values 1 0 < nthD x_values 0 0 then x_values.reverse else x_values
  let y1 := if nthD x_values 1 0 < nthD x_values 0 0 then y_values.reverse else y_values
  let med := npMedian y1
  let max_peak_idx := npArgmax (y1.map (fun v => pyAbs (v - med)))
  let y2 := if nthD y1 max_peak_idx 0 < med then y1.map Neg.neg else y1
  let hull_vertex_indices := hull (x1.zip y2)
  let indices_rolled := npRollLeft hull_vertex_indices (npArgmin hull_vertex_indices)
  let indices_final := indices_rolled.take (npArgmax indices_rolled)
  let baseline := x1.map (npInterpPoint (indices_final.map (fun i => nthD x1 i 0))
    (indices_final.map (fun i => nthD y2 i 0)))
  let baseline2 := if nthD x_values 1 0 < nthD x_values 0 0 then baseline.reverse else baseline
  if nthD y1 max_peak_idx 0 < med then baseline2.map Neg.neg else baseline2

theorem nthD_eq_getElem {α : Type _} (l : List α) (i : ℕ) (d : α) (h : i < l.length) :
    nthD l i d = l[i] := by
  induction l generalizing i with
  | nil => simp at h
  | cons v vs ih =>
    cases i with
    | zero => rfl
    | succ n =>
      have hn : n < vs.length := by simpa using h
      simpa [nthD] using ih n hn

theorem nthD_reverse {α : Type _} (l : List α) (i : ℕ) (d : α) (h : i < l.length) :
    nthD l.reverse i d = nthD l (l.length - 1 - i) d := by
  have h2 : l.length - 1 - i < l.length := by omega
  rw [nthD_eq_getElem l.reverse i d (by simpa using h), nthD_eq_getElem l _ d h2]
  exact List.getElem_reverse _

theorem rubberband_flip_asc (hull : List (ℚ × ℚ) → List ℕ) (x y : List ℚ)
    (hA : ¬ nthD x 1 0 < nthD x 0 0) (hB : nthD x.reverse 1 0 < nthD x.reverse 0 0) :
    (rubberband_baseline_detection hull x.reverse y.reverse).reverse =
      rubberband_baseline_detection hull x y := by
  unfold rubberband_baseline_detection
  simp only [if_neg hA, if_pos hB, List.reverse_reverse]
  split_ifs with hp
  · simp [List.map_reverse]
  · simp

theorem rubberband_flip_desc (hull : List (ℚ × ℚ) → List ℕ) (x y : List ℚ)
    (hA : nthD x 1 0 < nthD x 0 0) (hB : ¬ nthD x.reverse 1 0 < nthD x.reverse 0 0) :
    (rubberband_baseline_detection hull x.reverse y.reverse).reverse =
      rubberband_baseline_detection hull x y := by
  unfold rubberband_baseline_detection
  simp only [if_pos hA, if_neg hB, List.reverse_reverse]
  split_ifs with hp
  · simp [List.map_reverse]
  · simp

/-- C9: on strictly monotonic x arrays of length at least two (in either
direction, the inputs the rubberband detection accepts), running the detection on
the x- and y-reversed input and reversing the returned baseline gives exactly the
baseline of the original order; over exact rationals the equality is exact, which
subsumes the floating-tolerance phrasing. -/
theorem rubberband_reversal_invariance (hull : List (ℚ × ℚ) → List ℕ) (x y : List ℚ)
    (hlen : 2 ≤ x.length)
    (hmono : List.Chain' (fun a b => a < b) x ∨ List.Chain' (fun a b => b < a) x) :
    (rubberband_baseline_detection hull x.reverse y.reverse).reverse =
      rubberband_baseline_detection hull x y := by
  have h0 : 0 < x.length := by omega
  have h1 : 1 < x.length := by omega
  have hi : x.length - 1 - 1 < x.length := by omega
  have hj : x.length - 1 - 0 < x.length := by omega
  have e1 : x.length - 1 - 1 = x.length - 2 := by omega
  have e2 : x.length - 1 - 0 = x.length - 2 + 1 := by omega
  cases hmono with
  | inl hc =>
    have hadj := List.chain'_iff_get.mp hc
    have h01 := hadj 0 (by omega)
    simp only [List.get_eq_getElem] at h01
    have hadj2 := hadj (x.length - 2) (by omega)
    simp only [List.get_eq_getElem] at hadj2
    have hA : ¬ nthD x 1 0 < nthD x 0 0 := by
      rw [nthD_eq_getElem x 1 0 h1, nthD_eq_getElem x 0 0 h0]
      exact not_lt.mpr (le_of_lt h01)
    have hB : nthD x.reverse 1 0 < nthD x.reverse 0 0 := by
      rw [nthD_reverse x 1 0 h1, nthD_reverse x 0 0 h0,
        nthD_eq_getElem x _ 0 hi, nthD_eq_getElem x _ 0 hj]
      simp only [e1, e2]
      exact hadj2
    exact rubberband_flip_asc hull x y hA hB
  | inr hc =>
    have hadj := List.chain'_iff_get.mp hc
    have h01 := hadj 0 (by omega)
    simp only [List.get_eq_getElem] at h01
    have hadj2 := hadj (x.length - 2) (by omega)
    simp only [List.get_eq_getElem] at hadj2
    have hA : nthD x 1 0 < nthD x 0 0 := by
      rw [nthD_eq_getElem x 1 0 h1, nthD_eq_getElem x 0 0 h0]
      exact h01
    have hB : ¬ nthD x.reverse 1 0 < nthD x.reverse 0 0 := by
      rw [nthD_reverse x 1 0 h1, nthD_reverse x 0 0 h0,
        nthD_eq_getElem x _ 0 hi, nthD_eq_getElem x _ 0 hj]
      simp only [e1, e2]
      exact not_lt.mpr (le_of_lt hadj2)
    exact rubberband_flip_desc hull x y hA hB

theorem rubberband_reversal_invariance_witness :
    (2 ≤ ([0, 1, 2] : List ℚ).length ∧
      (List.Chain' (fun a b => a < b) ([0, 1, 2] : List ℚ) ∨
        List.Chain' (fun a b => b < a) ([0, 1, 2] : List ℚ))) ∧
    (rubberband_baseline_detection (fun _ => [0, 2, 1]) ([0, 1, 2] : List ℚ).reverse
        ([5, 9, 5] : List ℚ).reverse).reverse =
      rubberband_baseline_detection (fun _ => [0, 2, 1]) [0, 1, 2] [5, 9, 5] := by
  have hlen : 2 ≤ ([0, 1, 2] : List ℚ).length := by simp
  have hmono : List.Chain' (fun a b => a < b) ([0, 1, 2] : List ℚ) ∨
      List.Chain' (fun a b => b < a) ([0, 1, 2] : List ℚ) := by
    left
    refine List.chain'_cons.mpr ⟨?_, List.chain'_cons.mpr ⟨?_, List.chain'_singleton _⟩⟩
    · with_unfolding_all decide
    · with_unfolding_all decide
  exact ⟨⟨hlen, hmono⟩,
    rubberband_reversal_invariance (fun _ => [0, 2, 1]) [0, 1, 2] [5, 9, 5] hlen hmono⟩

/-- Field access peak[key] on the peak dictionary; a missing key is a KeyError.
The Python boolean of the overlap flag reads as 0 or 1 in comparisons. -/
def Peak.lookup (p : Peak) : String → Option ℚ
  | "onset" => some p.onset
  | "offset" => some p.offset
  | "peak" => some p.peak
  | "onset_idx" => some p.onset_idx
  | "peak_idx" => some p.peak_idx
  | "offset_idx" => some p.offset_idx
  | "height" => some p.height
  | "width" => some p.width
  | "shape_factor" => some p.shape_factor
  | "rel_shape_factor" => some p.rel_shape_factor
  | "overlap" => some (if p.overlap then 1 else 0)
  | _ => none

/-- Filter clause of peak_selection.filter_peaks: a key and the predicate obtained
from eval() of the operation string; the evaluated code is external, so it enters
as a function on the field value. -/
structure FilterClause where
  key : String
  operation : ℚ → Bool

/-- Selection clause of peak_selection.select_peaks: a key and the aggregate
obtained from eval() of the operation string; the evaluated code is external and
may raise (max of an empty list is a ValueError). -/
structure SelectClause where
  key : String
  operation : List ℚ → Except PyErr ℚ

/-- One filter pass of filter_peaks: the comprehension looks each peak's field up
(raising KeyError when absent) and keeps the peaks passing the predicate. -/
def filterOnce (f : FilterClause) : List Peak → Except PyErr (List Peak)
  | [] => .ok []
  | p :: rest =>
    match p.lookup f.key with
    | none => .error .keyError
    | some v =>
      match filterOnce f rest with
      | .error e => .error e
      | .ok tail => .ok (if f.operation v then p :: tail else tail)

/-- Embedding of peak_selection.filter_peaks: the filters apply in sequence. -/
def filter_peaks : List Peak → List FilterClause → Except PyErr (List Peak)
  | peaks, [] => .ok peaks
  | peaks, f :: fs =>
    match filterOnce f peaks with
    | .error e => .error e
    | .ok filtered => filter_peaks filtered fs

/-- Collection of the selected field over a peak list, raising KeyError when a
peak lacks the field. -/
def lookupProps (key : String) : List Peak → Except PyErr (List ℚ)
  | [] => .ok []
  | p :: rest =>
    match p.lookup key with
    | none => .error .keyError
    | some v =>
      match lookupProps key rest with
      | .error e => .error e
      | .ok vs => .ok (v :: vs)

/-- Placeholder record standing behind total indexing of peak lists. -/
def defaultPeak : Peak :=
  { onset := 0, offset := 0, peak := 0, onset_idx := 0, peak_idx := 0, offset_idx := 0,
    height := 0, width := 0, shape_factor := 0, rel_shape_factor := 0, overlap := false }

/-- Embedding of peak_selection.select_peaks: evaluates the aggregate over the
field values and returns the first index (and record) whose value equals the
result; list.index of an absent value is a ValueError. -/
def select_peaks (peak_list : List Peak) (operation : SelectClause) :
    Except PyErr (ℕ × Peak) :=
  match lookupProps operation.key peak_list with
  | .error e => .error e
  | .ok props =>
    match operation.operation props with
    | .error e => .error e
    | .ok target =>
      match props.findIdx? (fun v => decide (v = target)) with
      | none => .error .valueError
      | some peak_idx => .ok (peak_idx, nthD peak_list peak_idx defaultPeak)

/-- Filter-then-select attempt of one iteration inside the try block of
_get_cv_parameters. -/
def trySelect (filters : List FilterClause) (selection : SelectClause)
    (peaks : List Peak) : Except PyErr (ℕ × Peak) :=
  match filter_peaks peaks filters with
  | .error e => .error e
  | .ok filtered => select_peaks filtered selection

/-- Success-path row of _get_cv_parameters for one iteration: the loop over the
full Peak Picking list moves min_peak_onset to the offset of every peak below the
selected one and max_peak_offset to the onset of every peak above it (last
assignment winning), then widens by additional_voltage and clips, and stores
[max, max, min, max, max]. -/
def cvRow (peaks : List Peak) (selected : Peak)
    (min_voltage max_voltage additional_voltage : ℚ) : List ℚ :=
  let mm := peaks.foldl
    (fun acc peak =>
      if peak.peak < selected.peak then (peak.offset, acc.2)
      else if selected.peak < peak.peak then (acc.1, peak.onset)
      else acc)
    (min_voltage, max_voltage)
  let min_peak_onset := max mm.1 (selected.onset - additional_voltage)
  let max_peak_offset := min mm.2 (selected.offset + additional_voltage)
  [max_peak_offset, max_peak_offset, min_peak_onset, max_peak_offset, max_peak_offset]

/-- Embedding of PulseTechniqueAnalyzer._get_cv_parameters over the stored
per-iteration Peak Picking lists. The cv_parameters array starts as np.zeros, a
TypeError or ValueError from filtering/selection leaves the zero row in place and
continues, and any other exception propagates. -/
def get_cv_parameters (filters : List FilterClause) (selection : SelectClause)
    (min_voltage max_voltage additional_voltage : ℚ) :
    List (List Peak) → Except PyErr (List (List ℚ))
  | [] => .ok []
  | peaks :: rest =>
    match trySelect filters selection peaks with
    | .ok sel =>
      match get_cv_parameters filters selection min_voltage max_voltage additional_voltage
          rest with
      | .error e => .error e
      | .ok rows => .ok (cvRow peaks sel.2 min_voltage max_voltage additional_voltage :: rows)
    | .error .typeError =>
      match get_cv_parameters filters selection min_voltage max_voltage additional_voltage
          rest with
      | .error e => .error e
      | .ok rows => .ok ([0, 0, 0, 0, 0] :: rows)
    | .error .valueError =>
      match get_cv_parameters filters selection min_voltage max_voltage additional_voltage
          rest with
      | .error e => .error e
      | .ok rows => .ok ([0, 0, 0, 0, 0] :: rows)
    | .error e => .error e

/-- Selection aggregate of the standard configuration: eval of max(x), raising
ValueError on the empty list. -/
def selectMax : SelectClause :=
  { key := "peak",
    operation := fun props =>
      match props with
      | [] => .error .valueError
      | v :: vs => .ok (vs.foldl max v) }

/-- C6 as stated is false: when selection fails for an iteration, the code leaves
the np.zeros row for that iteration, which differs from the global-bounds window
the claim asserts (with min_voltage -1 and max_voltage 1 the global-bounds row
would be [1, 1, -1, 1, 1], not the zero row). -/
theorem cv_parameters_fallback_counterexample :
    get_cv_parameters [] selectMax (-1) 1 0 [[], []] =
      .ok [[0, 0, 0, 0, 0], [0, 0, 0, 0, 0]] ∧
    ¬ (([0, 0, 0, 0, 0] : List ℚ) = [1, 1, -1, 1, 1]) := by
  constructor
  · with_unfolding_all rfl
  · intro h
    have := List.head_eq_of_cons_eq h
    exact absurd this (by with_unfolding_all decide)

/-- C6 amended: when every filtering/selection failure in the run raises TypeError
or ValueError (the caught kinds), the analyzer completes without aborting,
produces one row per iteration, and every failing iteration's row remains the
zero row of the np.zeros initialisation rather than the global-bounds window. -/
theorem cv_parameters_fallback (peakPicking : List (List Peak))
    (filters : List FilterClause) (selection : SelectClause)
    (min_voltage max_voltage additional_voltage : ℚ)
    (hsafe : ∀ peaks ∈ peakPicking, ∀ e, trySelect filters selection peaks = .error e →
      e = .typeError ∨ e = .valueError) :
    ∃ rows, get_cv_parameters filters selection min_voltage max_voltage additional_voltage
        peakPicking = .ok rows ∧
      rows.length = peakPicking.length ∧
      ∀ i, i < peakPicking.length →
        (∃ e, trySelect filters selection (nthD peakPicking i []) = .error e) →
        nthD rows i [] = [0, 0, 0, 0, 0] := by
  induction peakPicking with
  | nil => exact ⟨[], rfl, rfl, fun i hi _ => absurd hi (by simp)⟩
  | cons peaks rest ih =>
    have hsafe' : ∀ ps ∈ rest, ∀ e, trySelect filters selection ps = .error e →
        e = .typeError ∨ e = .valueError :=
      fun ps hmem e he => hsafe ps (List.mem_cons_of_mem _ hmem) e he
    obtain ⟨rows, hrows, hlen, hzero⟩ := ih hsafe'
    cases hts : trySelect filters selection peaks with
    | ok sel =>
      refine ⟨cvRow peaks sel.2 min_voltage max_voltage additional_voltage :: rows, ?_, ?_, ?_⟩
      · unfold get_cv_parameters
        rw [hts, hrows]
      · simpa using hlen
      · intro i hi hfail
        cases i with
        | zero =>
          obtain ⟨e, he⟩ := hfail
          rw [show nthD (peaks :: rest) 0 [] = peaks from rfl] at he
          rw [hts] at he
          exact absurd he (by simp)
        | succ n =>
          have hn : n < rest.length := by simpa using hi
          exact hzero n hn (by simpa [nthD] using hfail)
    | error e =>
      rcases hsafe peaks (by simp) e hts with hcase | hcase
      · subst hcase
        refine ⟨[0, 0, 0, 0, 0] :: rows, ?_, ?_, ?_⟩
        · unfold get_cv_parameters
          rw [hts, hrows]
        · simpa using hlen
        · intro i hi hfail
          cases i with
          | zero => rfl
          | succ n =>
            have hn : n < rest.length := by simpa using hi
            exact hzero n hn (by simpa [nthD] using hfail)
      · subst hcase
        refine ⟨[0, 0, 0, 0, 0] :: rows, ?_, ?_, ?_⟩
        · unfold get_cv_parameters
          rw [hts, hrows]
        · simpa using hlen
        · intro i hi hfail
          cases i with
          | zero => rfl
          | succ n =>
            have hn : n < rest.length := by simpa using hi
            exact hzero n hn (by simpa [nthD] using hfail)

theorem cv_parameters_fallback_witness :
    (∀ peaks ∈ [([] : List Peak)], ∀ e, trySelect [] selectMax peaks = .error e →
      e = .typeError ∨ e = .valueError) ∧
    ∃ rows, get_cv_parameters [] selectMax (-1) 1 0 [[]] = .ok rows ∧
      rows.length = ([([] : List Peak)]).length ∧
      ∀ i, i < ([([] : List Peak)]).length →
        (∃ e, trySelect [] selectMax (nthD [([] : List Peak)] i []) = .error e) →
        nthD rows i [] = [0, 0, 0, 0, 0] := by
  have hsafe : ∀ peaks ∈ [([] : List Peak)], ∀ e, trySelect [] selectMax peaks = .error e →
      e = .typeError ∨ e = .valueError := by
    intro peaks hmem e he
    rw [List.mem_singleton] at hmem
    subst hmem
    have hv : trySelect [] selectMax ([] : List Peak) = .error .valueError := rfl
    rw [hv] at he
    right
    exact (Except.error.inj he).symm
  exact ⟨hsafe, cv_parameters_fallback [[]] [] selectMax (-1) 1 0 hsafe⟩

/-- Runtime value stored in workflow results and parameter dictionaries. -/
inductive Val where
  | str (s : String)
  | num (q : ℚ)
  | bool (b : Bool)
  | dict (entries : List (String × Val))

/-- Dict assignment d[k] = v on an insertion-ordered association list. -/
def setVal : List (String × Val) → String → Val → List (String × Val)
  | [], k, v => [(k, v)]
  | (k0, v0) :: rest, k, v =>
    if k0 = k then (k0, v) :: rest else (k0, v0) :: setVal rest k v

/-- Dict lookup returning none when the key is absent. -/
def lookupVal : List (String × Val) → String → Option Val
  | [], _ => none
  | (k0, v0) :: rest, k => if k0 = k then some v0 else lookupVal rest k

/-- Subscript v[key]: KeyError on a dict without the key, TypeError when
subscripting a non-dict value with a string. -/
def getItem : Val → String → Except PyErr Val
  | .dict d, key =>
    match lookupVal d key with
    | none => .error .keyError
    | some v => .ok v
  | _, _ => .error .typeError

/-- One entry of the update_parameters list of a measure step. -/
structure UpdateSetting where
  parameter : String
  from_measurement : String
  key : String

/-- The _exception_keywords table of the WorkflowManager: the string values SKIP
and STOP raise the matching control exception. -/
def exceptionKeyword : Val → Option PyErr
  | .str "SKIP" => some .skipExecution
  | .str "STOP" => some .stopExecution
  | _ => none

/-- Embedding of WorkflowManager._update_parameters: each setting looks the new
value up in a prior step's result (KeyError or TypeError on bad lookups), raises
the control exception when the value is a recognised keyword string, and
otherwise writes it into the parameter dict. -/
def update_parameters : List UpdateSetting → List (String × Val) → List (String × Val) →
    Except PyErr (List (String × Val))
  | [], parameters, _ => .ok parameters
  | u :: rest, parameters, previous_results =>
    match lookupVal previous_results u.from_measurement with
    | none => .error .keyError
    | some outer =>
      match getItem outer u.key with
      | .error e => .error e
      | .ok new_value =>
        match exceptionKeyword new_value with
        | some e => .error e
        | none => update_parameters rest (setVal parameters u.parameter new_value)
            previous_results

/-- Events a sample run emits toward the sampling system and the potentiostat. -/
inductive Event where
  | transferToCell
  | diluteCell
  | purgeCell
  | washAutosampler
  | washCell
  | measure (step_name : String)
  deriving DecidableEq

/-- Measure-task fields of one workflow step; the potentiostat measurement and
the data analysis are external calls and enter as functions. -/
structure MeasureSpec where
  technique : String
  parameters : List (String × Val)
  update_parameters : List UpdateSetting
  do_measurement : List (String × Val) → Except PyErr (List (List ℚ))
  analyze_data : List (List ℚ) → Except PyErr Val

/-- One workflow step as the task dispatch of _execute_step sees it: a measure
task, a dilute task, or an unknown task name whose dict lookup raises KeyError. -/
inductive StepSpec where
  | measure (m : MeasureSpec)
  | dilute
  | unknownTask (task : String)

/-- Embedding of WorkflowManager.run_measurement: optional cross-step parameter
update, the measurement, the analysis, then storage under the step name. -/
def run_measurement (step_name : String) (m : MeasureSpec)
    (results : List (String × Val)) :
    List Event × Except PyErr (List (String × Val)) :=
  match (if m.update_parameters.isEmpty then .ok m.parameters
      else update_parameters m.update_parameters m.parameters results :
      Except PyErr (List (String × Val))) with
  | .error e => ([], .error e)
  | .ok parameters =>
    match m.do_measurement parameters with
    | .error e => ([.measure step_name], .error e)
    | .ok raw_data =>
      match m.analyze_data raw_data with
      | .error e => ([.measure step_name], .error e)
      | .ok analysis_results =>
        ([.measure step_name], .ok (setVal results step_name analysis_results))

/-- Embedding of WorkflowManager._execute_step: dispatch over the task name. -/
def execute_step (step_name : String) (spec : StepSpec)
    (results : List (String × Val)) :
    List Event × Except PyErr (List (String × Val)) :=
  match spec with
  | .measure m => run_measurement step_name m results
  | .dilute => ([.diluteCell], .ok (setVal results "dilution" (.bool true)))
  | .unknownTask _ => ([], .error .keyError)

/-- The step loop of _measure_sample: SkipExecution aborts only the current step
and continues, StopExecution breaks out of the loop, and every other exception
propagates. -/
def run_steps : List (String × StepSpec) → List (String × Val) →
    List Event × Except PyErr (List (String × Val))
  | [], result => ([], .ok result)
  | (step, step_details) :: rest, result =>
    match execute_step step step_details result with
    | (tr, .ok result2) =>
      let next := run_steps rest result2
      (tr ++ next.1, next.2)
    | (tr, .error e) =>
      if e = .skipExecution then
        let next := run_steps rest result
        (tr ++ next.1, next.2)
      else if e = .stopExecution then (tr, .ok result)
      else (tr, .error e)

/-- Workflow settings of one sample run, as loaded from the workflow file. -/
structure Workflow where
  protocol_name : String
  steps : List (String × StepSpec)
  sample_volume : ℚ
  total_volume : ℚ
  purge_time : ℚ
  discard_sample : Bool
  wash_volume : ℚ
  washing_cycles : ℕ

/-- Hardware calls of the cell-fill phase of the _sample_in_cell context manager. -/
def fill_events : List Event := [.transferToCell, .diluteCell, .purgeCell]

/-- Hardware calls of the finally block of _sample_in_cell: the autosampler wash
when the discard flag is set, then the cell wash. -/
def teardown_events (discard_sample : Bool) : List Event :=
  (if discard_sample then [.washAutosampler] else []) ++ [.washCell]

/-- The result dict of _measure_sample before any step runs. -/
def initial_result (sample_name protocol_name : String) : List (String × Val) :=
  [("Sample Name", .str sample_name), ("Workflow", .str protocol_name)]

/-- Embedding of WorkflowManager._measure_sample: the context manager emits the
fill sequence, the step loop runs, and the finally block emits the teardown
sequence before any step exception reaches the caller. -/
def measure_sample (sample_name : String) (wf : Workflow) :
    List Event × Except PyErr (List (String × Val)) :=
  let inner := run_steps wf.steps (initial_result sample_name wf.protocol_name)
  (fill_events ++ inner.1 ++ teardown_events wf.discard_sample, inner.2)

theorem run_steps_cons_ok (step : String) (details : StepSpec)
    (rest : List (String × StepSpec)) (acc : List (String × Val))
    (tr : List Event) (result2 : List (String × Val))
    (hex : execute_step step details acc = (tr, .ok result2)) :
    run_steps ((step, details) :: rest) acc =
      (tr ++ (run_steps rest result2).1, (run_steps rest result2).2) := by
  conv_lhs => rw [run_steps]
  rw [hex]

theorem run_steps_cons_error (step : String) (details : StepSpec)
    (rest : List (String × StepSpec)) (acc : List (String × Val))
    (tr : List Event) (e : PyErr)
    (hex : execute_step step details acc = (tr, .error e)) :
    run_steps ((step, details) :: rest) acc =
      (if e = .skipExecution then
        (tr ++ (run_steps rest acc).1, (run_steps rest acc).2)
      else if e = .stopExecution then (tr, .ok acc)
      else (tr, .error e)) := by
  conv_lhs => rw [run_steps]
  rw [hex]

theorem run_measurement_trace (step_name : String) (m : MeasureSpec)
    (results : List (String × Val)) :
    (run_measurement step_name m results).1 = [] ∨
      (run_measurement step_name m results).1 = [.measure step_name] := by
  unfold run_measurement
  split
  · left; rfl
  · split
    · right; rfl
    · split
      · right; rfl
      · right; rfl

theorem run_measurement_events (step_name : String) (m : MeasureSpec)
    (results : List (String × Val)) :
    ∀ ev ∈ (run_measurement step_name m results).1, ev = .measure step_name := by
  intro ev hev
  rcases run_measurement_trace step_name m results with h | h
  · rw [h] at hev
    simp at hev
  · rw [h] at hev
    simpa using hev

theorem execute_step_events (step_name : String) (spec : StepSpec)
    (results : List (String × Val)) :
    ∀ ev ∈ (execute_step step_name spec results).1,
      ev = .diluteCell ∨ ev = .measure step_name := by
  cases spec with
  | measure m =>
    intro ev hev
    exact Or.inr (run_measurement_events step_name m results ev hev)
  | dilute =>
    intro ev hev
    left
    simpa [execute_step] using hev
  | unknownTask t =>
    intro ev hev
    simp [execute_step] at hev

theorem run_steps_props (steps : List (String × StepSpec)) (acc : List (String × Val)) :
    (∀ ev ∈ (run_steps steps acc).1, ev = .diluteCell ∨ ∃ n, ev = .measure n) ∧
    (∀ e, (run_steps steps acc).2 = .error e →
      e ≠ .skipExecution ∧ e ≠ .stopExecution) := by
  induction steps generalizing acc with
  | nil =>
    constructor
    · intro ev hev
      simp [run_steps] at hev
    · intro e he
      simp [run_steps] at he
  | cons s rest ih =>
    obtain ⟨step, details⟩ := s
    cases hex : execute_step step details acc with
    | mk tr out =>
      have htr : ∀ ev ∈ tr, ev = .diluteCell ∨ ∃ n, ev = .measure n := by
        intro ev hev
        rcases execute_step_events step details acc ev (by rw [hex]; exact hev) with h | h
        · exact Or.inl h
        · exact Or.inr ⟨step, h⟩
      cases out with
      | ok result2 =>
        have hred := run_steps_cons_ok step details rest acc tr result2 hex
        rw [hred]
        constructor
        · intro ev hev
          rcases List.mem_append.mp hev with h | h
          · exact htr ev h
          · exact (ih result2).1 ev h
        · intro e he
          exact (ih result2).2 e he
      | error err =>
        have hred := run_steps_cons_error step details rest acc tr err hex
        rw [hred]
        by_cases hskip : err = .skipExecution
        · rw [if_pos hskip]
          constructor
          · intro ev hev
            rcases List.mem_append.mp hev with h | h
            · exact htr ev h
            · exact (ih acc).1 ev h
          · intro e he
            exact (ih acc).2 e he
        · rw [if_neg hskip]
          by_cases hstop : err = .stopExecution
          · rw [if_pos hstop]
            constructor
            · intro ev hev
              exact htr ev hev
            · intro e he
              simp at he
          · rw [if_neg hstop]
            constructor
            · intro ev hev
              exact htr ev hev
            · intro e he
              have : err = e := Except.error.inj he
              subst this
              exact ⟨hskip, hstop⟩

/-- C1: whenever the step loop of a sample run propagates an exception, that
exception is neither SKIP nor STOP (those are swallowed at the step boundary),
the run's outcome is that same exception unswallowed, and the trace the caller
observes ends with the cell-emptying teardown, exactly one wash-cell call and an
autosampler wash exactly when the discard flag is set, after all step events. -/
theorem teardown_on_unexpected_exception (sample_name : String) (wf : Workflow)
    (e : PyErr)
    (herr : (run_steps wf.steps (initial_result sample_name wf.protocol_name)).2 =
      .error e) :
    e ≠ .skipExecution ∧ e ≠ .stopExecution ∧
    (measure_sample sample_name wf).2 = .error e ∧
    List.count .washCell (measure_sample sample_name wf).1 = 1 ∧
    List.count .washAutosampler (measure_sample sample_name wf).1 =
      (if wf.discard_sample then 1 else 0) ∧
    ∃ tr, (measure_sample sample_name wf).1 =
      fill_events ++ tr ++ teardown_events wf.discard_sample ∧
      Event.washCell ∉ tr ∧ Event.washAutosampler ∉ tr := by
  have hprops := run_steps_props wf.steps (initial_result sample_name wf.protocol_name)
  have hcontrol := hprops.2 e herr
  have hnm : Event.washCell ∉
      (run_steps wf.steps (initial_result sample_name wf.protocol_name)).1 := by
    intro hmem
    rcases hprops.1 _ hmem with h | ⟨n, h⟩ <;> simp at h
  have hna : Event.washAutosampler ∉
      (run_steps wf.steps (initial_result sample_name wf.protocol_name)).1 := by
    intro hmem
    rcases hprops.1 _ hmem with h | ⟨n, h⟩ <;> simp at h
  refine ⟨hcontrol.1, hcontrol.2, herr, ?_, ?_, ?_⟩
  · rw [show (measure_sample sample_name wf).1 =
      fill_events ++ (run_steps wf.steps (initial_result sample_name wf.protocol_name)).1 ++
        teardown_events wf.discard_sample from rfl]
    rw [List.count_append, List.count_append]
    rw [List.count_eq_zero.mpr hnm]
    cases hd : wf.discard_sample <;> simp [fill_events, teardown_events]
  · rw [show (measure_sample sample_name wf).1 =
      fill_events ++ (run_steps wf.steps (initial_result sample_name wf.protocol_name)).1 ++
        teardown_events wf.discard_sample from rfl]
    rw [List.count_append, List.count_append]
    rw [List.count_eq_zero.mpr hna]
    cases hd : wf.discard_sample <;> simp [fill_events, teardown_events]
  · exact ⟨(run_steps wf.steps (initial_result sample_name wf.protocol_name)).1,
      rfl, hnm, hna⟩

/-- Concrete single-step workflow whose only step dispatches an unknown task name
and so raises KeyError during step execution. -/
def wfFailDemo : Workflow :=
  { protocol_name := "P", steps := [("s1", .unknownTask "bogus")],
    sample_volume := 1, total_volume := 2, purge_time := 1,
    discard_sample := true, wash_volume := 5, washing_cycles := 3 }

theorem teardown_on_unexpected_exception_witness :
    (run_steps wfFailDemo.steps (initial_result "S" wfFailDemo.protocol_name)).2 =
      .error .keyError ∧
    (PyErr.keyError ≠ .skipExecution ∧ PyErr.keyError ≠ .stopExecution ∧
      (measure_sample "S" wfFailDemo).2 = .error .keyError ∧
      List.count .washCell (measure_sample "S" wfFailDemo).1 = 1 ∧
      List.count .washAutosampler (measure_sample "S" wfFailDemo).1 =
        (if wfFailDemo.discard_sample then 1 else 0) ∧
      ∃ tr, (measure_sample "S" wfFailDemo).1 =
          fill_events ++ tr ++ teardown_events wfFailDemo.discard_sample ∧
        Event.washCell ∉ tr ∧ Event.washAutosampler ∉ tr) := by
  have herr : (run_steps wfFailDemo.steps (initial_result "S" wfFailDemo.protocol_name)).2 =
      .error .keyError := rfl
  exact ⟨herr, teardown_on_unexpected_exception "S" wfFailDemo .keyError herr⟩

theorem lookupVal_setVal_self (l : List (String × Val)) (k : String) (v : Val) :
    lookupVal (setVal l k v) k = some v := by
  induction l with
  | nil => simp [setVal, lookupVal]
  | cons p rest ih =>
    obtain ⟨k0, v0⟩ := p
    by_cases h : k0 = k
    · simp [setVal, lookupVal, h]
    · simp [setVal, lookupVal, h, ih]

theorem lookupVal_setVal_other (l : List (String × Val)) (k kq : String) (v : Val)
    (h : kq ≠ k) :
    lookupVal (setVal l k v) kq = lookupVal l kq := by
  induction l with
  | nil => simp [setVal, lookupVal, Ne.symm h]
  | cons p rest ih =>
    obtain ⟨k0, v0⟩ := p
    by_cases h0 : k0 = k
    · subst h0
      simp [setVal, lookupVal, Ne.symm h]
    · simp [setVal, lookupVal, h0, ih]

theorem run_measurement_ok (n : String) (m : MeasureSpec)
    (results p : List (String × Val)) (raw : List (List ℚ)) (ar : Val)
    (hp : (if m.update_parameters.isEmpty then Except.ok m.parameters
      else update_parameters m.update_parameters m.parameters results) = .ok p)
    (hm : m.do_measurement p = .ok raw)
    (ha : m.analyze_data raw = .ok ar) :
    run_measurement n m results = ([.measure n], .ok (setVal results n ar)) := by
  unfold run_measurement
  rw [hp]
  dsimp only []
  rw [hm]
  dsimp only []
  rw [ha]

theorem run_measurement_update_error (n : String) (m : MeasureSpec)
    (results : List (String × Val)) (e : PyErr)
    (hne : ¬ m.update_parameters.isEmpty = true)
    (hu : update_parameters m.update_parameters m.parameters results = .error e) :
    run_measurement n m results = ([], .error e) := by
  unfold run_measurement
  rw [if_neg hne, hu]

theorem count_washCell_trace (sample_name : String) (wf : Workflow) :
    List.count .washCell (measure_sample sample_name wf).1 = 1 := by
  have hprops := run_steps_props wf.steps (initial_result sample_name wf.protocol_name)
  have hnm : Event.washCell ∉
      (run_steps wf.steps (initial_result sample_name wf.protocol_name)).1 := by
    intro hmem
    rcases hprops.1 _ hmem with h | ⟨n, h⟩ <;> simp at h
  rw [show (measure_sample sample_name wf).1 =
    fill_events ++ (run_steps wf.steps (initial_result sample_name wf.protocol_name)).1 ++
      teardown_events wf.discard_sample from rfl]
  rw [List.count_append, List.count_append, List.count_eq_zero.mpr hnm]
  cases hd : wf.discard_sample <;> simp [fill_events, teardown_events]

/-- C2: in a three-step workflow whose first and third measure steps complete
normally and whose second step's cross-step parameter update resolves to the
string SKIP, only step 2 is aborted: the final result dict holds the entries of
steps 1 and 3 but none under step 2's name, and the run still reaches the cell
teardown, with the cell wash occurring exactly once. -/
theorem workflow_skip_semantics (sample_name : String) (wf : Workflow)
    (n1 n2 n3 : String) (m1 m2 m3 : MeasureSpec)
    (hsteps : wf.steps = [(n1, .measure m1), (n2, .measure m2), (n3, .measure m3)])
    (hm1u : m1.update_parameters = [])
    (raw1 : List (List ℚ)) (v1 : Val)
    (h1m : m1.do_measurement m1.parameters = .ok raw1)
    (h1a : m1.analyze_data raw1 = .ok v1)
    (u2 : UpdateSetting) (us2 : List UpdateSetting)
    (hm2u : m2.update_parameters = u2 :: us2)
    (outer : Val)
    (hlook : lookupVal (setVal (initial_result sample_name wf.protocol_name) n1 v1)
      u2.from_measurement = some outer)
    (hkey : getItem outer u2.key = .ok (.str "SKIP"))
    (hm3u : m3.update_parameters = [])
    (raw3 : List (List ℚ)) (v3 : Val)
    (h3m : m3.do_measurement m3.parameters = .ok raw3)
    (h3a : m3.analyze_data raw3 = .ok v3)
    (hn31 : n3 ≠ n1) (hn21 : n2 ≠ n1) (hn23 : n2 ≠ n3)
    (hn2sn : n2 ≠ "Sample Name") (hn2wf : n2 ≠ "Workflow") :
    (measure_sample sample_name wf).2 =
      .ok (setVal (setVal (initial_result sample_name wf.protocol_name) n1 v1) n3 v3) ∧
    lookupVal (setVal (setVal (initial_result sample_name wf.protocol_name) n1 v1) n3 v3)
      n1 = some v1 ∧
    lookupVal (setVal (setVal (initial_result sample_name wf.protocol_name) n1 v1) n3 v3)
      n3 = some v3 ∧
    lookupVal (setVal (setVal (initial_result sample_name wf.protocol_name) n1 v1) n3 v3)
      n2 = none ∧
    List.count .washCell (measure_sample sample_name wf).1 = 1 := by
  have e1 : execute_step n1 (.measure m1) (initial_result sample_name wf.protocol_name) =
      ([.measure n1], .ok (setVal (initial_result sample_name wf.protocol_name) n1 v1)) := by
    show run_measurement n1 m1 _ = _
    exact run_measurement_ok n1 m1 _ m1.parameters raw1 v1 (by rw [hm1u]; rfl) h1m h1a
  have hu2 : update_parameters m2.update_parameters m2.parameters
      (setVal (initial_result sample_name wf.protocol_name) n1 v1) =
      .error .skipExecution := by
    rw [hm2u]
    conv_lhs => rw [update_parameters]
    rw [hlook]
    dsimp only []
    rw [hkey]
    rfl
  have e2 : execute_step n2 (.measure m2)
      (setVal (initial_result sample_name wf.protocol_name) n1 v1) =
      ([], .error .skipExecution) := by
    show run_measurement n2 m2 _ = _
    exact run_measurement_update_error n2 m2 _ .skipExecution
      (by rw [hm2u]; simp) hu2
  have e3 : execute_step n3 (.measure m3)
      (setVal (initial_result sample_name wf.protocol_name) n1 v1) =
      ([.measure n3], .ok (setVal (setVal (initial_result sample_name wf.protocol_name)
        n1 v1) n3 v3)) := by
    show run_measurement n3 m3 _ = _
    exact run_measurement_ok n3 m3 _ m3.parameters raw3 v3 (by rw [hm3u]; rfl) h3m h3a
  have hs1 := run_steps_cons_ok n1 (.measure m1)
    [(n2, .measure m2), (n3, .measure m3)]
    (initial_result sample_name wf.protocol_name) [.measure n1]
    (setVal (initial_result sample_name wf.protocol_name) n1 v1) e1
  have hs2 := run_steps_cons_error n2 (.measure m2) [(n3, .measure m3)]
    (setVal (initial_result sample_name wf.protocol_name) n1 v1) [] .skipExecution e2
  rw [if_pos rfl] at hs2
  have hs3 := run_steps_cons_ok n3 (.measure m3) []
    (setVal (initial_result sample_name wf.protocol_name) n1 v1) [.measure n3]
    (setVal (setVal (initial_result sample_name wf.protocol_name) n1 v1) n3 v3) e3
  have hrun : (run_steps wf.steps (initial_result sample_name wf.protocol_name)).2 =
      .ok (setVal (setVal (initial_result sample_name wf.protocol_name) n1 v1) n3 v3) := by
    rw [hsteps, hs1, hs2, hs3]
    rfl
  refine ⟨hrun, ?_, ?_, ?_, count_washCell_trace sample_name wf⟩
  · rw [lookupVal_setVal_other _ n3 n1 v3 (Ne.symm hn31)]
    exact lookupVal_setVal_self _ n1 v1
  · exact lookupVal_setVal_self _ n3 v3
  · rw [lookupVal_setVal_other _ n3 n2 v3 hn23,
      lookupVal_setVal_other _ n1 n2 v1 hn21]
    simp [initial_result, lookupVal, Ne.symm hn2sn, Ne.symm hn2wf]

/-- C3: in a three-step workflow whose first measure step completes normally and
whose second step's cross-step parameter update resolves to the string STOP, the
remaining steps are aborted: the final result dict holds step 1's entry and no
entry under the names of steps 2 or 3, and the cell-emptying teardown still runs
with exactly one cell wash. -/
theorem workflow_stop_semantics (sample_name : String) (wf : Workflow)
    (n1 n2 n3 : String) (m1 m2 m3 : MeasureSpec)
    (hsteps : wf.steps = [(n1, .measure m1), (n2, .measure m2), (n3, .measure m3)])
    (hm1u : m1.update_parameters = [])
    (raw1 : List (List ℚ)) (v1 : Val)
    (h1m : m1.do_measurement m1.parameters = .ok raw1)
    (h1a : m1.analyze_data raw1 = .ok v1)
    (u2 : UpdateSetting) (us2 : List UpdateSetting)
    (hm2u : m2.update_parameters = u2 :: us2)
    (outer : Val)
    (hlook : lookupVal (setVal (initial_result sample_name wf.protocol_name) n1 v1)
      u2.from_measurement = some outer)
    (hkey : getItem outer u2.key = .ok (.str "STOP"))
    (hn21 : n2 ≠ n1) (hn2sn : n2 ≠ "Sample Name") (hn2wf : n2 ≠ "Workflow")
    (hn31 : n3 ≠ n1) (hn3sn : n3 ≠ "Sample Name") (hn3wf : n3 ≠ "Workflow") :
    (measure_sample sample_name wf).2 =
      .ok (setVal (initial_result sample_name wf.protocol_name) n1 v1) ∧
    lookupVal (setVal (initial_result sample_name wf.protocol_name) n1 v1) n1 = some v1 ∧
    lookupVal (setVal (initial_result sample_name wf.protocol_name) n1 v1) n2 = none ∧
    lookupVal (setVal (initial_result sample_name wf.protocol_name) n1 v1) n3 = none ∧
    List.count .washCell (measure_sample sample_name wf).1 = 1 := by
  have e1 : execute_step n1 (.measure m1) (initial_result sample_name wf.protocol_name) =
      ([.measure n1], .ok (setVal (initial_result sample_name wf.protocol_name) n1 v1)) := by
    show run_measurement n1 m1 _ = _
    exact run_measurement_ok n1 m1 _ m1.parameters raw1 v1 (by rw [hm1u]; rfl) h1m h1a
  have hu2 : update_parameters m2.update_parameters m2.parameters
      (setVal (initial_result sample_name wf.protocol_name) n1 v1) =
      .error .stopExecution := by
    rw [hm2u]
    conv_lhs => rw [update_parameters]
    rw [hlook]
    dsimp only []
    rw [hkey]
    rfl
  have e2 : execute_step n2 (.measure m2)
      (setVal (initial_result sample_name wf.protocol_name) n1 v1) =
      ([], .error .stopExecution) := by
    show run_measurement n2 m2 _ = _
    exact run_measurement_update_error n2 m2 _ .stopExecution
      (by rw [hm2u]; simp) hu2
  have hs1 := run_steps_cons_ok n1 (.measure m1)
    [(n2, .measure m2), (n3, .measure m3)]
    (initial_result sample_name wf.protocol_name) [.measure n1]
    (setVal (initial_result sample_name wf.protocol_name) n1 v1) e1
  have hs2 := run_steps_cons_error n2 (.measure m2) [(n3, .measure m3)]
    (setVal (initial_result sample_name wf.protocol_name) n1 v1) [] .stopExecution e2
  rw [if_neg (by simp), if_pos rfl] at hs2
  have hrun : (run_steps wf.steps (initial_result sample_name wf.protocol_name)).2 =
      .ok (setVal (initial_result sample_name wf.protocol_name) n1 v1) := by
    rw [hsteps, hs1, hs2]
  refine ⟨hrun, lookupVal_setVal_self _ n1 v1, ?_, ?_,
    count_washCell_trace sample_name wf⟩
  · rw [lookupVal_setVal_other _ n1 n2 v1 hn21]
    simp [initial_result, lookupVal, Ne.symm hn2sn, Ne.symm hn2wf]
  · rw [lookupVal_setVal_other _ n1 n3 v1 hn31]
    simp [initial_result, lookupVal, Ne.symm hn3sn, Ne.symm hn3wf]

/-- Measure step succeeding with the given analysis result and no parameter
updates. -/
def mSpecOk (v : Val) : MeasureSpec :=
  { technique := "T", parameters := [], update_parameters := [],
    do_measurement := fun _ => .ok [], analyze_data := fun _ => .ok v }

/-- Measure step carrying one cross-step parameter update. -/
def mSpecUpd (u : UpdateSetting) : MeasureSpec :=
  { technique := "T", parameters := [], update_parameters := [u],
    do_measurement := fun _ => .ok [], analyze_data := fun _ => .ok (.num 2) }

/-- Analysis result of the demo first step carrying the SKIP keyword. -/
def vSkip : Val := .dict [("key", .str "SKIP")]

/-- Analysis result of the demo first step carrying the STOP keyword. -/
def vStop : Val := .dict [("key", .str "STOP")]

/-- Cross-step update reading key "key" from the result of step st1. -/
def uDemo : UpdateSetting :=
  { parameter := "par", from_measurement := "st1", key := "key" }

/-- Three-step demo workflow whose second step resolves an update to SKIP. -/
def wfSkipDemo : Workflow :=
  { protocol_name := "Proto",
    steps := [("st1", .measure (mSpecOk vSkip)), ("st2", .measure (mSpecUpd uDemo)),
      ("st3", .measure (mSpecOk (.num 3)))],
    sample_volume := 1, total_volume := 2, purge_time := 1,
    discard_sample := false, wash_volume := 5, washing_cycles := 3 }

/-- Three-step demo workflow whose second step resolves an update to STOP. -/
def wfStopDemo : Workflow :=
  { protocol_name := "Proto",
    steps := [("st1", .measure (mSpecOk vStop)), ("st2", .measure (mSpecUpd uDemo)),
      ("st3", .measure (mSpecOk (.num 3)))],
    sample_volume := 1, total_volume := 2, purge_time := 1,
    discard_sample := false, wash_volume := 5, washing_cycles := 3 }

theorem workflow_skip_semantics_witness :
    (wfSkipDemo.steps = [("st1", .measure (mSpecOk vSkip)),
        ("st2", .measure (mSpecUpd uDemo)), ("st3", .measure (mSpecOk (.num 3)))] ∧
      (mSpecOk vSkip).update_parameters = [] ∧
      (mSpecOk vSkip).do_measurement (mSpecOk vSkip).parameters = .ok [] ∧
      (mSpecOk vSkip).analyze_data [] = .ok vSkip ∧
      (mSpecUpd uDemo).update_parameters = uDemo :: [] ∧
      lookupVal (setVal (initial_result "S" wfSkipDemo.protocol_name) "st1" vSkip)
        uDemo.from_measurement = some vSkip ∧
      getItem vSkip uDemo.key = .ok (.str "SKIP") ∧
      (mSpecOk (.num 3)).update_parameters = [] ∧
      (mSpecOk (.num 3)).do_measurement (mSpecOk (.num 3)).parameters = .ok [] ∧
      (mSpecOk (.num 3)).analyze_data [] = .ok (.num 3) ∧
      ("st3" : String) ≠ "st1" ∧ ("st2" : String) ≠ "st1" ∧ ("st2" : String) ≠ "st3" ∧
      ("st2" : String) ≠ "Sample Name" ∧ ("st2" : String) ≠ "Workflow") ∧
    ((measure_sample "S" wfSkipDemo).2 =
        .ok (setVal (setVal (initial_result "S" wfSkipDemo.protocol_name) "st1" vSkip)
          "st3" (.num 3)) ∧
      lookupVal (setVal (setVal (initial_result "S" wfSkipDemo.protocol_name) "st1" vSkip)
        "st3" (.num 3)) "st1" = some vSkip ∧
      lookupVal (setVal (setVal (initial_result "S" wfSkipDemo.protocol_name) "st1" vSkip)
        "st3" (.num 3)) "st3" = some (.num 3) ∧
      lookupVal (setVal (setVal (initial_result "S" wfSkipDemo.protocol_name) "st1" vSkip)
        "st3" (.num 3)) "st2" = none ∧
      List.count .washCell (measure_sample "S" wfSkipDemo).1 = 1) := by
  constructor
  · refine ⟨rfl, rfl, rfl, rfl, rfl, rfl, rfl, rfl, rfl, rfl, ?_, ?_, ?_, ?_, ?_⟩ <;> decide
  · exact workflow_skip_semantics "S" wfSkipDemo "st1" "st2" "st3"
      (mSpecOk vSkip) (mSpecUpd uDemo) (mSpecOk (.num 3)) rfl rfl [] vSkip rfl rfl
      uDemo [] rfl vSkip rfl rfl rfl [] (.num 3) rfl rfl
      (by decide) (by decide) (by decide) (by decide) (by decide)

theorem workflow_stop_semantics_witness :
    (wfStopDemo.steps = [("st1", .measure (mSpecOk vStop)),
        ("st2", .measure (mSpecUpd uDemo)), ("st3", .measure (mSpecOk (.num 3)))] ∧
      (mSpecOk vStop).update_parameters = [] ∧
      (mSpecOk vStop).do_measurement (mSpecOk vStop).parameters = .ok [] ∧
      (mSpecOk vStop).analyze_data [] = .ok vStop ∧
      (mSpecUpd uDemo).update_parameters = uDemo :: [] ∧
      lookupVal (setVal (initial_result "S" wfStopDemo.protocol_name) "st1" vStop)
        uDemo.from_measurement = some vStop ∧
      getItem vStop uDemo.key = .ok (.str "STOP") ∧
      ("st2" : String) ≠ "st1" ∧ ("st2" : String) ≠ "Sample Name" ∧
      ("st2" : String) ≠ "Workflow" ∧ ("st3" : String) ≠ "st1" ∧
      ("st3" : String) ≠ "Sample Name" ∧ ("st3" : String) ≠ "Workflow") ∧
    ((measure_sample "S" wfStopDemo).2 =
        .ok (setVal (initial_result "S" wfStopDemo.protocol_name) "st1" vStop) ∧
      lookupVal (setVal (initial_result "S" wfStopDemo.protocol_name) "st1" vStop) "st1" =
        some vStop ∧
      lookupVal (setVal (initial_result "S" wfStopDemo.protocol_name) "st1" vStop) "st2" =
        none ∧
      lookupVal (setVal (initial_result "S" wfStopDemo.protocol_name) "st1" vStop) "st3" =
        none ∧
      List.count .washCell (measure_sample "S" wfStopDemo).1 = 1) := by
  constructor
  · refine ⟨rfl, rfl, rfl, rfl, rfl, rfl, rfl, ?_, ?_, ?_, ?_, ?_, ?_⟩ <;> decide
  · exact workflow_stop_semantics "S" wfStopDemo "st1" "st2" "st3"
      (mSpecOk vStop) (mSpecUpd uDemo) (mSpecOk (.num 3)) rfl rfl [] vStop rfl rfl
      uDemo [] rfl vStop rfl rfl
      (by decide) (by decide) (by decide) (by decide) (by decide) (by decide)

end Etoad
